import Mathlib

/-!
Verification of the section-segmentation core of the JIBC Workshops Navigator
repository (four Streamlit revisions: hoba_app_updated.py, hoba_app_updated_old1.py,
hoba_app_updated_v6.py, hoba_app_updated_v9.py).

The embedded code is `extract_sections_from_docx` together with its configuration
(`SECTIONS`, `PHASE_PATTERNS`) from each revision.  Paragraph text and style names
are modelled as `List Char` (ASCII-faithful: Python's `str.strip`, `str.upper`,
`str.lower`, `str.isupper` and `str.split` are embedded character by character for
the ASCII range the patterns and style names live in).

Python regular-expression `search` is embedded as an existential scan over match
positions.  Each of the six compiled patterns is translated to a decidable text
predicate:

* `\bdiscovery\b`, `\bdesign\b`, `\broadmap\b` (with `re.I`): a case-insensitive
  occurrence of the keyword bounded on both sides by word boundaries;
* `\brequirement(s)?\b`, `\bintegration(s)?\b`: the optional group is adjacent to
  the trailing `\b`, so a successful search is exactly an occurrence of the bare
  keyword or of its plural, each as a bounded whole word;
* `\bfinali[sz]ation|final readout|approval\b`: regex alternation has the lowest
  precedence, so the three alternatives are `\bfinali[sz]ation` (left boundary
  only), `final readout` (no boundaries) and `approval\b` (right boundary only).

In hoba_app_updated.py the patterns are written with doubled backslashes inside
raw strings (`r"\\bdiscovery\\b"`), so `\\b` is the regex escape for one literal
backslash followed by the letter `b`; those patterns are embedded as plain
substring searches for the literal backslash-laden text.

Python 3.7+ dicts preserve insertion order, so iteration over
`PHASE_PATTERNS.items()` visits the rules in the declared phase order; the
embedding iterates over the `SECTIONS` list, which lists the same keys in the
same order.
-/

/-- The six phases.  In the source these are the string constants of `SECTIONS`;
the fixed finite set is modelled as an enumerated type. -/
inductive Phase where
  | DISCOVERY
  | DESIGN
  | REQUIREMENTS
  | INTEGRATION
  | ROADMAP
  | FINALIZATION
deriving DecidableEq

open Phase

/-- `SECTIONS = ["DISCOVERY", "DESIGN", "REQUIREMENTS", "INTEGRATION", "ROADMAP",
"FINALIZATION"]` — identical in all four revisions. -/
def SECTIONS : List Phase :=
  [DISCOVERY, DESIGN, REQUIREMENTS, INTEGRATION, ROADMAP, FINALIZATION]

/-- One unit of input: the spec's ParagraphRecord (`para.text` and
`para.style.name` as read by the source). -/
structure ParagraphRecord where
  text : List Char
  style : List Char
deriving DecidableEq

/-- Python word character for `\b`: `[A-Za-z0-9_]` (ASCII range). -/
def wordChar (c : Char) : Bool := c.isAlphanum || c == '_'

/-- Python whitespace (ASCII range), as used by `str.strip()` and `str.split()`. -/
def isSpaceChar (c : Char) : Bool :=
  c == ' ' || c == '\t' || c == '\n' || c == '\x0d' || c == '\x0b' || c == '\x0c'

/-- `str.strip()`: remove leading and trailing whitespace. -/
def pyStrip (l : List Char) : List Char :=
  ((l.dropWhile isSpaceChar).reverse.dropWhile isSpaceChar).reverse

/-- `str.upper()` (ASCII). -/
def pyUpper (l : List Char) : List Char := l.map Char.toUpper

/-- `str.lower()` (ASCII); used to embed the `re.I` flag. -/
def lc (l : List Char) : List Char := l.map Char.toLower

/-- `str.isupper()`: at least one cased character and no lowercase one (ASCII). -/
def pyIsUpper (l : List Char) : Bool :=
  l.any Char.isAlpha && l.all (fun c => !c.isLower)

/-- Auxiliary word counter: `b` records whether the previous character was
inside a word. -/
def countWordsAux (b : Bool) : List Char → Nat
  | [] => 0
  | c :: rest =>
    if isSpaceChar c then countWordsAux false rest
    else (if b then 0 else 1) + countWordsAux true rest

/-- `len(text.split())`: the number of maximal non-whitespace runs. -/
def countWords (l : List Char) : Nat := countWordsAux false l

/-- There is no word character directly before position `i` (the `\b` test on
the left side; position 0 is a boundary). -/
def noWordBefore (text : List Char) (i : Nat) : Bool :=
  i == 0 || !wordChar ((text[i-1]?).getD ' ')

/-- There is no word character at position `j` (the `\b` test on the right
side; the end of the text is a boundary). -/
def noWordAfter (text : List Char) (j : Nat) : Bool :=
  !wordChar ((text[j]?).getD ' ')

/-- The keyword occurs literally at position `i`. -/
def hasKwAt (kw text : List Char) (i : Nat) : Bool :=
  kw.isPrefixOf (text.drop i)

/-- `re.search` of `\bkw\b`: some position carries the keyword with word
boundaries on both sides. -/
def searchWW (kw text : List Char) : Bool :=
  (List.range (text.length + 1)).any fun i =>
    noWordBefore text i && hasKwAt kw text i && noWordAfter text (i + kw.length)

/-- `re.search` of `\bkw` (boundary on the left only). -/
def searchLB (kw text : List Char) : Bool :=
  (List.range (text.length + 1)).any fun i =>
    noWordBefore text i && hasKwAt kw text i

/-- `re.search` of `kw\b` (boundary on the right only). -/
def searchRB (kw text : List Char) : Bool :=
  (List.range (text.length + 1)).any fun i =>
    hasKwAt kw text i && noWordAfter text (i + kw.length)

/-- `re.search` of a plain literal `kw` (substring occurrence). -/
def searchSub (kw text : List Char) : Bool :=
  (List.range (text.length + 1)).any fun i => hasKwAt kw text i

/-- `PHASE_PATTERNS` of hoba_app_updated_v9.py (textually identical in v6 and
old1): `pattern.search(text) is not None` for each phase's compiled pattern. -/
def PHASE_PATTERNS (s : Phase) (text : List Char) : Bool :=
  let t := lc text
  match s with
  | DISCOVERY => searchWW "discovery".data t
  | DESIGN => searchWW "design".data t
  | REQUIREMENTS => searchWW "requirement".data t || searchWW "requirements".data t
  | INTEGRATION => searchWW "integration".data t || searchWW "integrations".data t
  | ROADMAP => searchWW "roadmap".data t
  | FINALIZATION =>
      searchLB "finalisation".data t || searchLB "finalization".data t ||
      searchSub "final readout".data t || searchRB "approval".data t

/-- `"HEADING" in style_name.upper()`. -/
def isHeadingStyle (style : List Char) : Bool :=
  searchSub "HEADING".data (pyUpper style)

/-- The accumulating `out = {s: [] for s in SECTIONS}` dictionary of fragment
lists, keyed by phase. -/
def Buckets : Type := Phase → List (List Char)

def emptyBuckets : Buckets := fun _ => []

/-- `out[sec].append(frag)`. -/
def bucketAppend (out : Buckets) (sec : Phase) (frag : List Char) : Buckets :=
  fun s => if s = sec then out s ++ [frag] else out s

/-- Steps 2) and 3) of the v9 loop body once the heading path did not match:
the pseudo-heading scan over `PHASE_PATTERNS.items()` with the
short-or-uppercase side condition, and the `else:` body path guarded by
`if current_section:`. -/
def pseudo_or_body (cur : Option Phase) (out : Buckets) (text : List Char) :
    Option Phase × Buckets :=
  match SECTIONS.find? (fun s =>
      PHASE_PATTERNS s text && (pyIsUpper text || decide (countWords text ≤ 6))) with
  | some sec => (some sec, bucketAppend out sec ("### ".data ++ text))
  | none =>
    match cur with
    | some c => (some c, bucketAppend out c text)
    | none => (cur, out)

/-- One iteration of the v9 `for para in doc.paragraphs:` loop, acting on the
`current_section` cursor and the buckets. -/
def step_v9 : Option Phase × Buckets → ParagraphRecord → Option Phase × Buckets
  | (cur, out), p =>
    let text := pyStrip p.text
    if text = [] then (cur, out)
    else if isHeadingStyle p.style then
      match SECTIONS.find? (fun s => PHASE_PATTERNS s text) with
      | some sec => (some sec, bucketAppend out sec ("### ".data ++ text))
      | none => pseudo_or_body cur out text
    else pseudo_or_body cur out text

/-- The whole v9 paragraph loop, started with `current_section = None` and
empty buckets. -/
def classify_v9 (ps : List ParagraphRecord) : Option Phase × Buckets :=
  ps.foldl step_v9 (none, emptyBuckets)

/-- The v9 placeholder substituted for an empty bucket in the final dict
comprehension. -/
def PLACEHOLDER_v9 : List Char :=
  "*(No section content found — check headings/keywords in the DOCX)*".data

/-- `"\n\n".join(v) if v else PLACEHOLDER` (v9). -/
def assemble_v9 (v : List (List Char)) : List Char :=
  if v = [] then PLACEHOLDER_v9 else List.intercalate "\n\n".data v

/-- `extract_sections_from_docx` of hoba_app_updated_v9.py on a successfully
produced paragraph sequence: the final
`{k: ("\n\n".join(v) if v else placeholder) for k, v in out.items()}`,
whose keys are the `SECTIONS` in insertion order. -/
def extract_sections_from_docx_v9 (ps : List ParagraphRecord) :
    List (Phase × List Char) :=
  SECTIONS.map fun s => (s, assemble_v9 ((classify_v9 ps).2 s))

/-- The v9 error message of the `docx_path` branch:
`{s: f"*(DOCX not found at {docx_path ...})*" for s in SECTIONS}`. -/
def docx_not_found_msg (path : List Char) : List Char :=
  "*(DOCX not found at ".data ++ path ++ ")*".data

def DEFAULT_DOCX_PATH : List Char :=
  "/mnt/data/JIBC_Workshop_Facilitation_Guidebook_Full.docx".data

/-- The full v9 entry point, with the collaborator's outcome made explicit:
`Except.error msg` is the case in which no paragraph sequence could be
produced (python-docx missing, DOCX not found, DOCX unreadable) — every one of
those early returns yields `{s: msg for s in SECTIONS}` for its respective
message — and `Except.ok ps` is a successfully produced sequence. -/
def extractSections_v9 : Except (List Char) (List ParagraphRecord) →
    List (Phase × List Char)
  | .error msg => SECTIONS.map fun s => (s, msg)
  | .ok ps => extract_sections_from_docx_v9 ps

/-- C1: for every collaborator outcome (hence for every finite paragraph
sequence, including the empty one and ones where nothing matches), the key
list of the returned mapping is exactly the six fixed phases, in order —
never fewer, never more. -/
theorem c1_key_set (inp : Except (List Char) (List ParagraphRecord)) :
    (extractSections_v9 inp).map Prod.fst = SECTIONS := by
  cases inp <;>
    simp [extractSections_v9, extract_sections_from_docx_v9, Function.comp_def]

/-- C10: each paragraph contributes at most one fragment to at most one
bucket: one loop iteration either leaves every bucket unchanged or appends a
single fragment (the heading-marked trimmed text or the plain trimmed text)
to exactly one phase's bucket. -/
theorem c10_at_most_one_fragment (cur : Option Phase) (out : Buckets)
    (p : ParagraphRecord) :
    (step_v9 (cur, out) p).2 = out ∨
    ∃ sec frag,
      (frag = "### ".data ++ pyStrip p.text ∨ frag = pyStrip p.text) ∧
      (step_v9 (cur, out) p).2 =
        fun s => if s = sec then out s ++ [frag] else out s := by
  unfold step_v9 pseudo_or_body
  dsimp only
  split
  · exact Or.inl rfl
  · split
    · split
      · exact Or.inr ⟨_, _, Or.inl rfl, rfl⟩
      · split
        · exact Or.inr ⟨_, _, Or.inl rfl, rfl⟩
        · split
          · exact Or.inr ⟨_, _, Or.inr rfl, rfl⟩
          · exact Or.inl rfl
    · split
      · exact Or.inr ⟨_, _, Or.inl rfl, rfl⟩
      · split
        · exact Or.inr ⟨_, _, Or.inr rfl, rfl⟩
        · exact Or.inl rfl

/-- If one loop iteration leaves the cursor undefined, it changed nothing:
with no active section, a paragraph that does not trigger a phase switch is
discarded. -/
theorem step_v9_none_fix (cur : Option Phase) (out : Buckets)
    (p : ParagraphRecord) (h : (step_v9 (cur, out) p).1 = none) :
    step_v9 (cur, out) p = (cur, out) := by
  revert h
  unfold step_v9 pseudo_or_body
  dsimp only
  split
  · intro _; rfl
  · split
    · split
      · intro h; exact absurd h (by simp)
      · split
        · intro h; exact absurd h (by simp)
        · split
          · intro h; exact absurd h (by simp)
          · intro _; rfl
    · split
      · intro h; exact absurd h (by simp)
      · split
        · intro h; exact absurd h (by simp)
        · intro _; rfl

/-- If a whole run of the loop ends with the cursor undefined, the run changed
nothing at all. -/
theorem foldl_step_v9_none_fix :
    ∀ (l : List ParagraphRecord) (cur : Option Phase) (out : Buckets),
      (List.foldl step_v9 (cur, out) l).1 = none →
      List.foldl step_v9 (cur, out) l = (cur, out)
  | [], _, _, _ => rfl
  | p :: l, cur, out, h => by
    rw [List.foldl_cons] at h ⊢
    rcases hst : step_v9 (cur, out) p with ⟨c1, o1⟩
    rw [hst] at h
    have ih := foldl_step_v9_none_fix l c1 o1 h
    have hc1 : c1 = none := by rw [ih] at h; exact h
    have hfix : step_v9 (cur, out) p = (cur, out) :=
      step_v9_none_fix cur out p (by rw [hst]; exact hc1)
    rw [ih, ← hst]
    exact hfix

/-- C3: content before the first recognized (pseudo-)heading is discarded.  If
a prefix of the input leaves the cursor undefined (no paragraph in it
triggered a phase switch), that prefix contributes nothing to any bucket or
to the assembled output: the extraction of `pre ++ rest` equals the
extraction of `rest` alone, whatever the texts in `pre` were. -/
theorem c3_discard_before_first_heading (pre rest : List ParagraphRecord)
    (h : (List.foldl step_v9 (none, emptyBuckets) pre).1 = none) :
    extract_sections_from_docx_v9 (pre ++ rest) =
      extract_sections_from_docx_v9 rest := by
  have hpre := foldl_step_v9_none_fix pre none emptyBuckets h
  unfold extract_sections_from_docx_v9 classify_v9
  rw [List.foldl_append, hpre]

/-- Witness for C3 at a concrete input: a body paragraph before any heading is
dropped from the output. -/
theorem c3_discard_before_first_heading_witness :
    (List.foldl step_v9 (none, emptyBuckets)
        [⟨"This intro paragraph mentions nothing relevant.".data, "Normal".data⟩]).1
      = none ∧
    extract_sections_from_docx_v9
        ([⟨"This intro paragraph mentions nothing relevant.".data, "Normal".data⟩] ++
          [⟨"DESIGN".data, "Normal".data⟩]) =
      extract_sections_from_docx_v9 [⟨"DESIGN".data, "Normal".data⟩] :=
  ⟨by decide,
   c3_discard_before_first_heading
     [⟨"This intro paragraph mentions nothing relevant.".data, "Normal".data⟩]
     [⟨"DESIGN".data, "Normal".data⟩] (by decide)⟩

/-- C2: the pseudo-heading rule, stated for one loop iteration on a
non-heading-styled paragraph whose trimmed text matches a phase rule (with
`sec` the first matching phase in declared order).  If the text has at most
six whitespace-delimited words or is entirely upper-case, the paragraph
switches the cursor to `sec` and appends the heading-marked fragment, exactly
as the same paragraph with an explicit heading style would; otherwise no
switch happens and the text is appended as plain body text to the active
phase's bucket, or discarded when no phase is active. -/
theorem c2_pseudo_heading (p : ParagraphRecord) (cur : Option Phase)
    (out : Buckets) (sec : Phase)
    (hstyle : isHeadingStyle p.style = false)
    (hne : pyStrip p.text ≠ [])
    (hfind : SECTIONS.find? (fun s => PHASE_PATTERNS s (pyStrip p.text)) = some sec) :
    ((pyIsUpper (pyStrip p.text) || decide (countWords (pyStrip p.text) ≤ 6)) = true →
      step_v9 (cur, out) p =
        (some sec, bucketAppend out sec ("### ".data ++ pyStrip p.text)) ∧
      step_v9 (cur, out) p = step_v9 (cur, out) ⟨p.text, "Heading 1".data⟩) ∧
    ((pyIsUpper (pyStrip p.text) || decide (countWords (pyStrip p.text) ≤ 6)) = false →
      step_v9 (cur, out) p =
        (cur, cur.elim out (fun c => bucketAppend out c (pyStrip p.text)))) := by
  constructor
  · intro hcond
    have hps : pseudo_or_body cur out (pyStrip p.text) =
        (some sec, bucketAppend out sec ("### ".data ++ pyStrip p.text)) := by
      unfold pseudo_or_body
      simp only [hcond, Bool.and_true]
      rw [hfind]
    constructor
    · unfold step_v9
      dsimp only
      rw [if_neg hne, hstyle]
      simpa using hps
    · unfold step_v9
      dsimp only
      rw [if_neg hne, hstyle]
      have hh : isHeadingStyle "Heading 1".data = true := by decide
      rw [if_neg hne, hh]
      simp only [Bool.false_eq_true, if_false, if_true]
      rw [hfind, hps]
  · intro hcond
    have hps : pseudo_or_body cur out (pyStrip p.text) =
        (cur, cur.elim out (fun c => bucketAppend out c (pyStrip p.text))) := by
      unfold pseudo_or_body
      simp only [hcond, Bool.and_false]
      have : List.find? (fun _ => false) SECTIONS = (none : Option Phase) := rfl
      rw [this]
      cases cur <;> rfl
    unfold step_v9
    dsimp only
    rw [if_neg hne, hstyle]
    simpa using hps

/-- Witness for C2 at concrete inputs: a two-word "Discovery overview" body
paragraph switches phases like a heading; an eight-word lower-case paragraph
containing "discovery" is appended as body text instead. -/
theorem c2_pseudo_heading_witness :
    (isHeadingStyle "Normal".data = false ∧
     pyStrip "Discovery overview".data ≠ [] ∧
     SECTIONS.find?
       (fun s => PHASE_PATTERNS s (pyStrip "Discovery overview".data)) =
         some DISCOVERY ∧
     ((pyIsUpper (pyStrip "Discovery overview".data) ||
         decide (countWords (pyStrip "Discovery overview".data) ≤ 6)) = true →
       step_v9 (none, emptyBuckets) ⟨"Discovery overview".data, "Normal".data⟩ =
         (some DISCOVERY,
          bucketAppend emptyBuckets DISCOVERY
            ("### ".data ++ pyStrip "Discovery overview".data)) ∧
       step_v9 (none, emptyBuckets) ⟨"Discovery overview".data, "Normal".data⟩ =
         step_v9 (none, emptyBuckets) ⟨"Discovery overview".data, "Heading 1".data⟩) ∧
     ((pyIsUpper (pyStrip "Discovery overview".data) ||
         decide (countWords (pyStrip "Discovery overview".data) ≤ 6)) = false →
       step_v9 (none, emptyBuckets) ⟨"Discovery overview".data, "Normal".data⟩ =
         (none, Option.elim none emptyBuckets
           (fun c => bucketAppend emptyBuckets c (pyStrip "Discovery overview".data))))) ∧
    (SECTIONS.find? (fun s => PHASE_PATTERNS s
        (pyStrip "the discovery work went on for many weeks".data)) =
          some DISCOVERY ∧
     (pyIsUpper (pyStrip "the discovery work went on for many weeks".data) ||
        decide (countWords
          (pyStrip "the discovery work went on for many weeks".data) ≤ 6)) = false ∧
     step_v9 (some DESIGN, emptyBuckets)
         ⟨"the discovery work went on for many weeks".data, "Normal".data⟩ =
       (some DESIGN, (some DESIGN).elim emptyBuckets
         (fun c => bucketAppend emptyBuckets c
           (pyStrip "the discovery work went on for many weeks".data)))) :=
  ⟨⟨by decide, by decide, by decide,
    (c2_pseudo_heading ⟨"Discovery overview".data, "Normal".data⟩ none emptyBuckets
      DISCOVERY (by decide) (by decide) (by decide)).1,
    (c2_pseudo_heading ⟨"Discovery overview".data, "Normal".data⟩ none emptyBuckets
      DISCOVERY (by decide) (by decide) (by decide)).2⟩,
   by decide, by decide,
   (c2_pseudo_heading
      ⟨"the discovery work went on for many weeks".data, "Normal".data⟩
      (some DESIGN) emptyBuckets DISCOVERY (by decide) (by decide) (by decide)).2
     (by decide)⟩

theorem phase_mem_SECTIONS (s : Phase) : s ∈ SECTIONS := by
  cases s <;> simp [SECTIONS]

/-- `List.find?` returns the earliest element satisfying the predicate. -/
theorem find?_earliest {α : Type} [DecidableEq α] :
    ∀ (l : List α) (p : α → Bool) (a : α), l.find? p = some a →
      p a = true ∧ ∀ b ∈ l, p b = true → l.indexOf a ≤ l.indexOf b
  | [], _, _, h => by simp [List.find?] at h
  | x :: xs, p, a, h => by
    by_cases hx : p x = true
    · rw [List.find?_cons_of_pos xs hx] at h
      obtain rfl : x = a := by injection h
      exact ⟨hx, fun b _ _ => by simp [List.indexOf_cons_self]⟩
    · rw [List.find?_cons_of_neg xs hx] at h
      obtain ⟨hpa, ih⟩ := find?_earliest xs p a h
      have hax : a ≠ x := fun hax => hx (hax ▸ hpa)
      refine ⟨hpa, fun b hb hpb => ?_⟩
      have hbx : b ≠ x := fun hbx => hx (hbx ▸ hpb)
      have hbxs : b ∈ xs := by
        rcases List.mem_cons.mp hb with h1 | h1
        · exact absurd h1 hbx
        · exact h1
      rw [List.indexOf_cons_ne xs hax.symm, List.indexOf_cons_ne xs hbx.symm]
      exact Nat.succ_le_succ (ih b hbxs hpb)

/-- C4: rule-order determinism.  For a paragraph whose trimmed text matches
the patterns of two (or more) different phases, taken through either the
heading path or the pseudo-heading path, the iteration switches the cursor to
the matching phase that comes earliest in the declared `SECTIONS` order and
appends the heading-marked fragment to that phase's bucket. -/
theorem c4_rule_order (p : ParagraphRecord) (cur : Option Phase) (out : Buckets)
    (s1 s2 : Phase)
    (hne : pyStrip p.text ≠ [])
    (h1 : PHASE_PATTERNS s1 (pyStrip p.text) = true)
    (h2 : PHASE_PATTERNS s2 (pyStrip p.text) = true)
    (h12 : s1 ≠ s2)
    (hpath : isHeadingStyle p.style = true ∨
      (pyIsUpper (pyStrip p.text) || decide (countWords (pyStrip p.text) ≤ 6)) = true) :
    ∃ sec, PHASE_PATTERNS sec (pyStrip p.text) = true ∧
      (∀ s', PHASE_PATTERNS s' (pyStrip p.text) = true →
        SECTIONS.indexOf sec ≤ SECTIONS.indexOf s') ∧
      step_v9 (cur, out) p =
        (some sec, bucketAppend out sec ("### ".data ++ pyStrip p.text)) := by
  rcases hfind : SECTIONS.find? (fun s => PHASE_PATTERNS s (pyStrip p.text)) with _ | sec
  · exact absurd h1
      (List.find?_eq_none.mp hfind s1 (phase_mem_SECTIONS s1))
  · obtain ⟨hsec, hmin⟩ := find?_earliest SECTIONS _ sec hfind
    refine ⟨sec, hsec, fun s' hs' => hmin s' (phase_mem_SECTIONS s') hs', ?_⟩
    by_cases hstyle : isHeadingStyle p.style = true
    · unfold step_v9
      dsimp only
      rw [if_neg hne, hstyle, if_pos rfl, hfind]
    · have hcond : (pyIsUpper (pyStrip p.text) ||
          decide (countWords (pyStrip p.text) ≤ 6)) = true := by
        rcases hpath with h | h
        · exact absurd h hstyle
        · exact h
      unfold step_v9
      dsimp only
      rw [if_neg hne, Bool.eq_false_iff.mpr hstyle]
      simp only [Bool.false_eq_true, if_false]
      unfold pseudo_or_body
      simp only [hcond, Bool.and_true]
      rw [hfind]

/-- Witness for C4 at a concrete input: "Design and discovery" matches both
DISCOVERY and DESIGN; DISCOVERY, declared first, wins. -/
theorem c4_rule_order_witness :
    (pyStrip "Design and discovery".data ≠ [] ∧
     PHASE_PATTERNS DISCOVERY (pyStrip "Design and discovery".data) = true ∧
     PHASE_PATTERNS DESIGN (pyStrip "Design and discovery".data) = true ∧
     DISCOVERY ≠ DESIGN ∧
     (pyIsUpper (pyStrip "Design and discovery".data) ||
        decide (countWords (pyStrip "Design and discovery".data) ≤ 6)) = true) ∧
    (∃ sec, PHASE_PATTERNS sec (pyStrip "Design and discovery".data) = true ∧
      (∀ s', PHASE_PATTERNS s' (pyStrip "Design and discovery".data) = true →
        SECTIONS.indexOf sec ≤ SECTIONS.indexOf s') ∧
      step_v9 (none, emptyBuckets) ⟨"Design and discovery".data, "Normal".data⟩ =
        (some sec, bucketAppend emptyBuckets sec
          ("### ".data ++ pyStrip "Design and discovery".data))) :=
  ⟨⟨by decide, by decide, by decide, by decide, by decide⟩,
   c4_rule_order ⟨"Design and discovery".data, "Normal".data⟩ none emptyBuckets
     DISCOVERY DESIGN (by decide) (by decide) (by decide) (by decide)
     (Or.inr (by decide))⟩

/-- A paragraph that strips to empty text is skipped by `continue` and changes
nothing. -/
theorem step_v9_blank (cur : Option Phase) (out : Buckets) (p : ParagraphRecord)
    (h : pyStrip p.text = []) : step_v9 (cur, out) p = (cur, out) := by
  unfold step_v9
  dsimp only
  rw [if_pos h]

theorem foldl_step_v9_blank :
    ∀ (ps : List ParagraphRecord) (cur : Option Phase) (out : Buckets),
      (∀ p ∈ ps, pyStrip p.text = []) →
      List.foldl step_v9 (cur, out) ps = (cur, out)
  | [], _, _, _ => rfl
  | p :: ps, cur, out, h => by
    rw [List.foldl_cons, step_v9_blank cur out p (h p (List.mem_cons_self p ps))]
    exact foldl_step_v9_blank ps cur out (fun q hq => h q (List.mem_cons_of_mem p hq))

/-- Counterexample to C5 as stated: on the empty input sequence no phase is
mapped to the string "(no section content found)"; the placeholder actually
substituted for an empty bucket is the longer v9 string. -/
theorem c5_counterexample :
    (Phase.DISCOVERY, "(no section content found)".data) ∉
        extract_sections_from_docx_v9 [] ∧
      (Phase.DISCOVERY, PLACEHOLDER_v9) ∈ extract_sections_from_docx_v9 [] := by
  decide

/-- C5 as amended: when the input sequence is empty, or every paragraph in it
strips to empty text, every bucket stays empty and every one of the six
phases is mapped to the fixed non-empty placeholder
"*(No section content found — check headings/keywords in the DOCX)*" rather
than to an empty string. -/
theorem c5_blank_input_placeholder (ps : List ParagraphRecord)
    (h : ∀ p ∈ ps, pyStrip p.text = []) :
    classify_v9 ps = (none, emptyBuckets) ∧
    PLACEHOLDER_v9 ≠ [] ∧
    extract_sections_from_docx_v9 ps =
      SECTIONS.map (fun s => (s, PLACEHOLDER_v9)) := by
  have hc : classify_v9 ps = (none, emptyBuckets) :=
    foldl_step_v9_blank ps none emptyBuckets h
  refine ⟨hc, by decide, ?_⟩
  unfold extract_sections_from_docx_v9
  rw [hc]
  rfl

/-- Witness for the amended C5 at a concrete input: one whitespace-only
paragraph. -/
theorem c5_blank_input_placeholder_witness :
    (∀ p ∈ [(⟨"   ".data, "Heading 1".data⟩ : ParagraphRecord)],
        pyStrip p.text = []) ∧
    (classify_v9 [⟨"   ".data, "Heading 1".data⟩] = (none, emptyBuckets) ∧
     PLACEHOLDER_v9 ≠ [] ∧
     extract_sections_from_docx_v9 [⟨"   ".data, "Heading 1".data⟩] =
       SECTIONS.map (fun s => (s, PLACEHOLDER_v9))) :=
  ⟨by decide,
   c5_blank_input_placeholder [⟨"   ".data, "Heading 1".data⟩] (by decide)⟩

/-- Counterexample to C7 as stated: when the collaborator reports "no input
sequence available" (here: DOCX not found at the default path), the returned
mapping is NOT the all-placeholder result — the six phases are mapped to the
failure message, not to the empty-bucket placeholder, and in particular not
to "(no section content found)". -/
theorem c7_counterexample :
    extractSections_v9 (Except.error (docx_not_found_msg DEFAULT_DOCX_PATH)) ≠
      SECTIONS.map (fun s => (s, PLACEHOLDER_v9)) ∧
    (Phase.DISCOVERY, "(no section content found)".data) ∉
      extractSections_v9 (Except.error (docx_not_found_msg DEFAULT_DOCX_PATH)) := by
  decide

/-- C7 as amended: when the classifier is told "no input sequence available",
it still returns a mapping over exactly the six phases, and every phase is
mapped to one shared string — the failure message for that failure mode —
which is in general different from the empty-bucket placeholder. -/
theorem c7_no_input_shared_message (msg : List Char) :
    (extractSections_v9 (Except.error msg)).map Prod.fst = SECTIONS ∧
    ∀ s : Phase, (s, msg) ∈ extractSections_v9 (Except.error msg) := by
  constructor
  · simp [extractSections_v9, Function.comp_def]
  · intro s
    unfold extractSections_v9
    exact List.mem_map.mpr ⟨s, phase_mem_SECTIONS s, rfl⟩

/-- The fields of a paragraph record that one loop iteration actually reads:
the trimmed text and whether the style is a heading style. -/
def paraEquiv (p q : ParagraphRecord) : Prop :=
  pyStrip p.text = pyStrip q.text ∧ isHeadingStyle p.style = isHeadingStyle q.style

theorem step_v9_congr (st : Option Phase × Buckets) (p q : ParagraphRecord)
    (h : paraEquiv p q) : step_v9 st p = step_v9 st q := by
  obtain ⟨c, o⟩ := st
  obtain ⟨h1, h2⟩ := h
  unfold step_v9
  dsimp only
  rw [h1, h2]

theorem foldl_step_v9_congr :
    ∀ {ps qs : List ParagraphRecord}, List.Forall₂ paraEquiv ps qs →
      ∀ st : Option Phase × Buckets,
        List.foldl step_v9 st ps = List.foldl step_v9 st qs
  | _, _, List.Forall₂.nil, _ => rfl
  | _, _, List.Forall₂.cons hpq h, st => by
    rw [List.foldl_cons, List.foldl_cons, step_v9_congr st _ _ hpq]
    exact foldl_step_v9_congr h _

/-- C8: `extract_sections_from_docx` is a pure function of the input sequence
and the fixed rule configuration alone — no hidden state crosses calls.  Two
runs on the same sequence give the same result, and more strongly the result
depends only on what the loop reads from each record (its trimmed text and
its heading-style flag): any two input sequences that agree on those, even in
different runs, give identical results. -/
theorem c8_deterministic_pure (ps qs : List ParagraphRecord)
    (h : List.Forall₂ paraEquiv ps qs) :
    extract_sections_from_docx_v9 ps = extract_sections_from_docx_v9 qs := by
  unfold extract_sections_from_docx_v9 classify_v9
  rw [foldl_step_v9_congr h]

/-- Witness for C8 at concrete inputs: the same logical sequence presented
twice (once with padded text and another heading-style spelling) extracts
identically. -/
theorem c8_deterministic_pure_witness :
    List.Forall₂ paraEquiv [⟨"  Discovery  ".data, "heading 5".data⟩]
      [⟨"Discovery".data, "HEADING!".data⟩] ∧
    extract_sections_from_docx_v9 [⟨"  Discovery  ".data, "heading 5".data⟩] =
      extract_sections_from_docx_v9 [⟨"Discovery".data, "HEADING!".data⟩] :=
  have hf : List.Forall₂ paraEquiv [⟨"  Discovery  ".data, "heading 5".data⟩]
      [⟨"Discovery".data, "HEADING!".data⟩] :=
    List.Forall₂.cons ⟨by decide, by decide⟩ List.Forall₂.nil
  ⟨hf, c8_deterministic_pure _ _ hf⟩

/-- The spec's "whole-word boundary" on the left of an occurrence: the text
before the keyword does not end in a word character. -/
def nonWordEnd (pre : List Char) : Prop :=
  ∀ c, pre.getLast? = some c → wordChar c = false

/-- The spec's "whole-word boundary" on the right of an occurrence: the text
after the keyword does not start with a word character. -/
def nonWordStart (suf : List Char) : Prop :=
  ∀ c, suf.head? = some c → wordChar c = false

/-- Spec-side reading of "the keyword occurs in the text as a whole word,
bounded on both sides by word boundaries". -/
def WholeWordOcc (kw text : List Char) : Prop :=
  ∃ pre suf, text = pre ++ kw ++ suf ∧ nonWordEnd pre ∧ nonWordStart suf

/-- Occurrence with a word boundary on the left only. -/
def LeftBoundOcc (kw text : List Char) : Prop :=
  ∃ pre suf, text = pre ++ kw ++ suf ∧ nonWordEnd pre

/-- Occurrence with a word boundary on the right only. -/
def RightBoundOcc (kw text : List Char) : Prop :=
  ∃ pre suf, text = pre ++ kw ++ suf ∧ nonWordStart suf

/-- Plain substring occurrence, no boundary requirement. -/
def SubOcc (kw text : List Char) : Prop :=
  ∃ pre suf, text = pre ++ kw ++ suf

theorem hasKwAt_iff (kw text : List Char) (i : Nat) :
    hasKwAt kw text i = true ↔ ∃ suf, text.drop i = kw ++ suf := by
  unfold hasKwAt
  rw [List.isPrefixOf_iff_prefix]
  constructor
  · rintro ⟨t, ht⟩; exact ⟨t, ht.symm⟩
  · rintro ⟨t, ht⟩; exact ⟨t, ht.symm⟩

theorem noWordBefore_iff (text : List Char) (i : Nat) (h : i ≤ text.length) :
    noWordBefore text i = true ↔ nonWordEnd (text.take i) := by
  unfold noWordBefore nonWordEnd
  cases i with
  | zero => simp
  | succ j =>
    have hj : j < text.length := h
    have h0 : ((j + 1 : Nat) == 0) = false := rfl
    have hidx : ((text[j + 1 - 1]?).getD ' ') = text[j] := by
      rw [Nat.add_sub_cancel, List.getElem?_eq_getElem hj, Option.getD_some]
    rw [h0, Bool.false_or, hidx, Bool.not_eq_true']
    have hlast : (text.take (j + 1)).getLast? = some text[j] := by
      rw [List.getLast?_eq_getElem?, List.length_take]
      have hmin : min (j + 1) text.length = j + 1 := Nat.min_eq_left hj
      rw [hmin, Nat.add_sub_cancel, List.getElem?_take]
      rw [if_pos (Nat.lt_succ_self j), List.getElem?_eq_getElem hj]
    rw [hlast]
    constructor
    · rintro hw c hc
      injection hc with hc
      rw [← hc]; exact hw
    · intro hw; exact hw _ rfl

theorem noWordAfter_iff (text : List Char) (j : Nat) :
    noWordAfter text j = true ↔ nonWordStart (text.drop j) := by
  unfold noWordAfter nonWordStart
  have hhead : (text.drop j).head? = text[j]? := by
    rw [List.head?_eq_getElem?, List.getElem?_drop, Nat.add_zero]
  rw [hhead]
  cases hj : text[j]? with
  | none => simp [wordChar]
  | some c =>
    rw [Option.getD_some, Bool.not_eq_true']
    constructor
    · rintro hw c' hc
      injection hc with hc
      rw [← hc]; exact hw
    · intro hw; exact hw _ rfl

theorem searchWW_iff (kw text : List Char) :
    searchWW kw text = true ↔ WholeWordOcc kw text := by
  unfold searchWW WholeWordOcc
  rw [List.any_eq_true]
  constructor
  · rintro ⟨i, hi, hb⟩
    rw [List.mem_range] at hi
    have hilen : i ≤ text.length := Nat.lt_succ_iff.mp hi
    rw [Bool.and_assoc, Bool.and_eq_true, Bool.and_eq_true] at hb
    obtain ⟨hbefore, hkw, hafter⟩ := hb
    obtain ⟨suf, hsuf⟩ := (hasKwAt_iff kw text i).mp hkw
    refine ⟨text.take i, suf, ?_, ?_, ?_⟩
    · conv_lhs => rw [← List.take_append_drop i text]
      rw [hsuf, List.append_assoc]
    · exact (noWordBefore_iff text i hilen).mp hbefore
    · have hsuf2 : text.drop (i + kw.length) = suf := by
        rw [← List.drop_drop, hsuf, List.drop_left]
      rw [← hsuf2]
      exact (noWordAfter_iff text (i + kw.length)).mp hafter
  · rintro ⟨pre, suf, htext, hend, hstart⟩
    refine ⟨pre.length, ?_, ?_⟩
    · rw [List.mem_range, Nat.lt_succ_iff, htext]
      simp [List.length_append]
    · have hdrop : text.drop pre.length = kw ++ suf := by
        rw [htext, List.append_assoc, List.drop_left]
      rw [Bool.and_assoc, Bool.and_eq_true, Bool.and_eq_true]
      refine ⟨?_, ?_, ?_⟩
      · have hpl : pre.length ≤ text.length := by
          rw [htext]; simp [List.length_append]
        rw [noWordBefore_iff text pre.length hpl, htext, List.append_assoc,
          List.take_left]
        exact hend
      · rw [hasKwAt_iff]; exact ⟨suf, hdrop⟩
      · rw [noWordAfter_iff]
        have hsuf2 : text.drop (pre.length + kw.length) = suf := by
          rw [← List.drop_drop, hdrop, List.drop_left]
        rw [hsuf2]
        exact hstart

theorem searchLB_iff (kw text : List Char) :
    searchLB kw text = true ↔ LeftBoundOcc kw text := by
  unfold searchLB LeftBoundOcc
  rw [List.any_eq_true]
  constructor
  · rintro ⟨i, hi, hb⟩
    rw [List.mem_range] at hi
    have hilen : i ≤ text.length := Nat.lt_succ_iff.mp hi
    rw [Bool.and_eq_true] at hb
    obtain ⟨hbefore, hkw⟩ := hb
    obtain ⟨suf, hsuf⟩ := (hasKwAt_iff kw text i).mp hkw
    refine ⟨text.take i, suf, ?_, ?_⟩
    · conv_lhs => rw [← List.take_append_drop i text]
      rw [hsuf, List.append_assoc]
    · exact (noWordBefore_iff text i hilen).mp hbefore
  · rintro ⟨pre, suf, htext, hend⟩
    refine ⟨pre.length, ?_, ?_⟩
    · rw [List.mem_range, Nat.lt_succ_iff, htext]
      simp [List.length_append]
    · rw [Bool.and_eq_true]
      constructor
      · have hpl : pre.length ≤ text.length := by
          rw [htext]; simp [List.length_append]
        rw [noWordBefore_iff text pre.length hpl, htext, List.append_assoc,
          List.take_left]
        exact hend
      · rw [hasKwAt_iff]
        exact ⟨suf, by rw [htext, List.append_assoc, List.drop_left]⟩

theorem searchRB_iff (kw text : List Char) :
    searchRB kw text = true ↔ RightBoundOcc kw text := by
  unfold searchRB RightBoundOcc
  rw [List.any_eq_true]
  constructor
  · rintro ⟨i, hi, hb⟩
    rw [Bool.and_eq_true] at hb
    obtain ⟨hkw, hafter⟩ := hb
    obtain ⟨suf, hsuf⟩ := (hasKwAt_iff kw text i).mp hkw
    refine ⟨text.take i, suf, ?_, ?_⟩
    · conv_lhs => rw [← List.take_append_drop i text]
      rw [hsuf, List.append_assoc]
    · have hsuf2 : text.drop (i + kw.length) = suf := by
        rw [← List.drop_drop, hsuf, List.drop_left]
      rw [← hsuf2]
      exact (noWordAfter_iff text (i + kw.length)).mp hafter
  · rintro ⟨pre, suf, htext, hstart⟩
    have hdrop : text.drop pre.length = kw ++ suf := by
      rw [htext, List.append_assoc, List.drop_left]
    refine ⟨pre.length, ?_, ?_⟩
    · rw [List.mem_range, Nat.lt_succ_iff, htext]
      simp [List.length_append]
    · rw [Bool.and_eq_true]
      constructor
      · rw [hasKwAt_iff]; exact ⟨suf, hdrop⟩
      · rw [noWordAfter_iff]
        have hsuf2 : text.drop (pre.length + kw.length) = suf := by
          rw [← List.drop_drop, hdrop, List.drop_left]
        rw [hsuf2]
        exact hstart

theorem searchSub_iff (kw text : List Char) :
    searchSub kw text = true ↔ SubOcc kw text := by
  unfold searchSub SubOcc
  rw [List.any_eq_true]
  constructor
  · rintro ⟨i, _, hkw⟩
    obtain ⟨suf, hsuf⟩ := (hasKwAt_iff kw text i).mp hkw
    refine ⟨text.take i, suf, ?_⟩
    conv_lhs => rw [← List.take_append_drop i text]
    rw [hsuf, List.append_assoc]
  · rintro ⟨pre, suf, htext⟩
    refine ⟨pre.length, ?_, ?_⟩
    · rw [List.mem_range, Nat.lt_succ_iff, htext]
      simp [List.length_append]
    · rw [hasKwAt_iff]
      exact ⟨suf, by rw [htext, List.append_assoc, List.drop_left]⟩

/-- Counterexample to C6 as stated: the FINALIZATION pattern
`\bfinali[sz]ation|final readout|approval\b` matches "disapproval" (where
"approval" occurs only inside a longer word) and "finalizations" (where
"finalization" occurs only inside a longer word), because regex alternation
binds loosest: only the first alternative carries the left `\b` and only the
last carries the right `\b`. -/
theorem c6_counterexample :
    PHASE_PATTERNS FINALIZATION "disapproval".data = true ∧
    PHASE_PATTERNS FINALIZATION "finalizations".data = true := by
  decide

/-- C6 as amended: the five patterns for DISCOVERY, DESIGN, REQUIREMENTS,
INTEGRATION and ROADMAP match exactly when the phase keyword (for
REQUIREMENTS and INTEGRATION: singular or plural) occurs in the lower-cased
text bounded on both sides by word boundaries; the FINALIZATION pattern
instead matches exactly when the lower-cased text contains "finalisation" or
"finalization" with a word boundary on the left only, or the substring
"final readout" anywhere, or "approval" with a word boundary on the right
only — so e.g. "disapproval" and "finalizations" do match FINALIZATION. -/
theorem c6_whole_word_characterisation (text : List Char) :
    (PHASE_PATTERNS DISCOVERY text = true ↔ WholeWordOcc "discovery".data (lc text)) ∧
    (PHASE_PATTERNS DESIGN text = true ↔ WholeWordOcc "design".data (lc text)) ∧
    (PHASE_PATTERNS REQUIREMENTS text = true ↔
      (WholeWordOcc "requirement".data (lc text) ∨
       WholeWordOcc "requirements".data (lc text))) ∧
    (PHASE_PATTERNS INTEGRATION text = true ↔
      (WholeWordOcc "integration".data (lc text) ∨
       WholeWordOcc "integrations".data (lc text))) ∧
    (PHASE_PATTERNS ROADMAP text = true ↔ WholeWordOcc "roadmap".data (lc text)) ∧
    (PHASE_PATTERNS FINALIZATION text = true ↔
      (LeftBoundOcc "finalisation".data (lc text) ∨
       LeftBoundOcc "finalization".data (lc text) ∨
       SubOcc "final readout".data (lc text) ∨
       RightBoundOcc "approval".data (lc text))) := by
  refine ⟨?_, ?_, ?_, ?_, ?_, ?_⟩ <;>
    simp only [PHASE_PATTERNS, Bool.or_eq_true, searchWW_iff, searchLB_iff,
      searchSub_iff, searchRB_iff, or_assoc]

theorem dropWhile_head?_false {p : Char → Bool} :
    ∀ (l : List Char) (c : Char), (l.dropWhile p).head? = some c → p c = false
  | [], c, h => by simp [List.dropWhile] at h
  | x :: xs, c, h => by
    rw [List.dropWhile_cons] at h
    by_cases hx : p x = true
    · rw [if_pos hx] at h
      exact dropWhile_head?_false xs c h
    · rw [if_neg hx, List.head?_cons] at h
      injection h with h1
      rw [← h1]
      exact Bool.eq_false_iff.mpr hx

theorem dropWhile_getLast?_eq {p : Char → Bool} :
    ∀ (l : List Char), l.dropWhile p ≠ [] → (l.dropWhile p).getLast? = l.getLast?
  | [], h => absurd rfl h
  | x :: xs, h => by
    rw [List.dropWhile_cons] at h ⊢
    by_cases hx : p x = true
    · rw [if_pos hx] at h ⊢
      have hxs : xs ≠ [] := by
        intro hnil
        rw [hnil] at h
        exact h rfl
      rw [dropWhile_getLast?_eq xs h]
      cases xs with
      | nil => exact absurd rfl hxs
      | cons y ys => rw [List.getLast?_cons_cons]
    · rw [if_neg hx]

theorem dropWhile_eq_self_of_head {p : Char → Bool} (l : List Char)
    (h : ∀ c, l.head? = some c → p c = false) : l.dropWhile p = l := by
  cases l with
  | nil => rfl
  | cons x xs =>
    have hx : p x = false := h x List.head?_cons
    rw [List.dropWhile_cons, if_neg (by simp [hx])]

/-- The stripped text does not start with whitespace. -/
theorem pyStrip_noLead (l : List Char) (c : Char)
    (h : (pyStrip l).head? = some c) : isSpaceChar c = false := by
  unfold pyStrip at h
  rw [List.head?_reverse] at h
  have hne : ((l.dropWhile isSpaceChar).reverse).dropWhile isSpaceChar ≠ [] := by
    intro hnil
    rw [hnil] at h
    simp at h
  rw [dropWhile_getLast?_eq _ hne, List.getLast?_reverse] at h
  exact dropWhile_head?_false l c h

/-- The stripped text does not end with whitespace. -/
theorem pyStrip_noTrail (l : List Char) (c : Char)
    (h : (pyStrip l).getLast? = some c) : isSpaceChar c = false := by
  unfold pyStrip at h
  rw [List.getLast?_reverse] at h
  exact dropWhile_head?_false _ c h

/-- `str.strip()` is idempotent. -/
theorem pyStrip_idem (l : List Char) : pyStrip (pyStrip l) = pyStrip l := by
  have h1 : (pyStrip l).dropWhile isSpaceChar = pyStrip l :=
    dropWhile_eq_self_of_head _ (pyStrip_noLead l)
  have h2 : ((pyStrip l).reverse).dropWhile isSpaceChar = (pyStrip l).reverse :=
    dropWhile_eq_self_of_head _ (fun c hc =>
      pyStrip_noTrail l c (by rwa [List.head?_reverse] at hc))
  show (((pyStrip l).dropWhile isSpaceChar).reverse.dropWhile
      isSpaceChar).reverse = pyStrip l
  rw [h1, h2, List.reverse_reverse]

/-- `PHASE_PATTERNS` of hoba_app_updated_v6.py (character-identical to the v9
table). -/
def PHASE_PATTERNS_v6 (s : Phase) (text : List Char) : Bool :=
  let t := lc text
  match s with
  | DISCOVERY => searchWW "discovery".data t
  | DESIGN => searchWW "design".data t
  | REQUIREMENTS => searchWW "requirement".data t || searchWW "requirements".data t
  | INTEGRATION => searchWW "integration".data t || searchWW "integrations".data t
  | ROADMAP => searchWW "roadmap".data t
  | FINALIZATION =>
      searchLB "finalisation".data t || searchLB "finalization".data t ||
      searchSub "final readout".data t || searchRB "approval".data t

/-- v6 pseudo-heading / body fall-through (lines 150-158 of the v6 file,
character-identical to v9). -/
def pseudo_or_body_v6 (cur : Option Phase) (out : Buckets) (text : List Char) :
    Option Phase × Buckets :=
  match SECTIONS.find? (fun s =>
      PHASE_PATTERNS_v6 s text && (pyIsUpper text || decide (countWords text ≤ 6))) with
  | some sec => (some sec, bucketAppend out sec ("### ".data ++ text))
  | none =>
    match cur with
    | some c => (some c, bucketAppend out c text)
    | none => (cur, out)

/-- One iteration of the v6 paragraph loop. -/
def step_v6 : Option Phase × Buckets → ParagraphRecord → Option Phase × Buckets
  | (cur, out), p =>
    let text := pyStrip p.text
    if text = [] then (cur, out)
    else if isHeadingStyle p.style then
      match SECTIONS.find? (fun s => PHASE_PATTERNS_v6 s text) with
      | some sec => (some sec, bucketAppend out sec ("### ".data ++ text))
      | none => pseudo_or_body_v6 cur out text
    else pseudo_or_body_v6 cur out text

def classify_v6 (ps : List ParagraphRecord) : Option Phase × Buckets :=
  ps.foldl step_v6 (none, emptyBuckets)

def PLACEHOLDER_v6 : List Char :=
  "*(No section content found — check headings/keywords in the DOCX)*".data

def assemble_v6 (v : List (List Char)) : List Char :=
  if v = [] then PLACEHOLDER_v6 else List.intercalate "\n\n".data v

/-- `extract_sections_from_docx` of hoba_app_updated_v6.py on a produced
paragraph sequence. -/
def extract_sections_from_docx_v6 (ps : List ParagraphRecord) :
    List (Phase × List Char) :=
  SECTIONS.map fun s => (s, assemble_v6 ((classify_v6 ps).2 s))

/-- `PHASE_PATTERNS` of hoba_app_updated_old1.py (character-identical to the
v9 table). -/
def PHASE_PATTERNS_old1 (s : Phase) (text : List Char) : Bool :=
  let t := lc text
  match s with
  | DISCOVERY => searchWW "discovery".data t
  | DESIGN => searchWW "design".data t
  | REQUIREMENTS => searchWW "requirement".data t || searchWW "requirements".data t
  | INTEGRATION => searchWW "integration".data t || searchWW "integrations".data t
  | ROADMAP => searchWW "roadmap".data t
  | FINALIZATION =>
      searchLB "finalisation".data t || searchLB "finalization".data t ||
      searchSub "final readout".data t || searchRB "approval".data t

/-- old1's `_append_line(buckets, current, text)` helper: append
`text.strip()` to the current bucket when a section is active and the
stripped text is non-empty. -/
def append_line_old1 (out : Buckets) (cur : Option Phase) (text : List Char) :
    Buckets :=
  match cur with
  | none => out
  | some c => if pyStrip text = [] then out else bucketAppend out c (pyStrip text)

/-- old1's pseudo-heading scan (line 126: `pattern.search(text) and
text.isupper() or pattern.search(text) and len(text.split()) <= 6`, where
`and` binds tighter than `or`) and its body fall-through via `_append_line`. -/
def pseudo_or_body_old1 (cur : Option Phase) (out : Buckets) (text : List Char) :
    Option Phase × Buckets :=
  match SECTIONS.find? (fun s =>
      (PHASE_PATTERNS_old1 s text && pyIsUpper text) ||
      (PHASE_PATTERNS_old1 s text && decide (countWords text ≤ 6))) with
  | some sec => (some sec, bucketAppend out sec ("### ".data ++ text))
  | none => (cur, append_line_old1 out cur text)

/-- One iteration of the old1 paragraph loop. -/
def step_old1 : Option Phase × Buckets → ParagraphRecord → Option Phase × Buckets
  | (cur, out), p =>
    let text := pyStrip p.text
    if text = [] then (cur, out)
    else if isHeadingStyle p.style then
      match SECTIONS.find? (fun s => PHASE_PATTERNS_old1 s text) with
      | some sec => (some sec, bucketAppend out sec ("### ".data ++ text))
      | none => pseudo_or_body_old1 cur out text
    else pseudo_or_body_old1 cur out text

def classify_old1 (ps : List ParagraphRecord) : Option Phase × Buckets :=
  ps.foldl step_old1 (none, emptyBuckets)

/-- The old1 placeholder: the em-dash is mojibake in that file (the three
characters U+00E2, U+20AC, U+201D instead of U+2014). -/
def PLACEHOLDER_old1 : List Char :=
  "*(No section content found â€” check headings/keywords in the DOCX)*".data

def assemble_old1 (v : List (List Char)) : List Char :=
  if v = [] then PLACEHOLDER_old1 else List.intercalate "\n\n".data v

/-- `extract_sections_from_docx` of hoba_app_updated_old1.py on a produced
paragraph sequence. -/
def extract_sections_from_docx_old1 (ps : List ParagraphRecord) :
    List (Phase × List Char) :=
  SECTIONS.map fun s => (s, assemble_old1 ((classify_old1 ps).2 s))

/-- `PHASE_PATTERNS` of hoba_app_updated.py.  There every pattern is written
with doubled backslashes inside a raw string (e.g. `r"\\bdiscovery\\b"`), so
`\\` is the regex escape for one literal backslash: the compiled patterns
match the literal characters backslash-b around the keywords, not word
boundaries.  Only the middle FINALIZATION alternative `final readout` is
backslash-free. -/
def PHASE_PATTERNS_updated (s : Phase) (text : List Char) : Bool :=
  let t := lc text
  match s with
  | DISCOVERY => searchSub "\\bdiscovery\\b".data t
  | DESIGN => searchSub "\\bdesign\\b".data t
  | REQUIREMENTS =>
      searchSub "\\brequirement\\b".data t || searchSub "\\brequirements\\b".data t
  | INTEGRATION =>
      searchSub "\\bintegration\\b".data t || searchSub "\\bintegrations\\b".data t
  | ROADMAP => searchSub "\\broadmap\\b".data t
  | FINALIZATION =>
      searchSub "\\bfinalisation".data t || searchSub "\\bfinalization".data t ||
      searchSub "final readout".data t || searchSub "approval\\b".data t

/-- hoba_app_updated.py pseudo-heading / body fall-through (same control
structure as v9, with its own pattern table). -/
def pseudo_or_body_updated (cur : Option Phase) (out : Buckets)
    (text : List Char) : Option Phase × Buckets :=
  match SECTIONS.find? (fun s =>
      PHASE_PATTERNS_updated s text &&
        (pyIsUpper text || decide (countWords text ≤ 6))) with
  | some sec => (some sec, bucketAppend out sec ("### ".data ++ text))
  | none =>
    match cur with
    | some c => (some c, bucketAppend out c text)
    | none => (cur, out)

/-- One iteration of the hoba_app_updated.py paragraph loop. -/
def step_updated : Option Phase × Buckets → ParagraphRecord →
    Option Phase × Buckets
  | (cur, out), p =>
    let text := pyStrip p.text
    if text = [] then (cur, out)
    else if isHeadingStyle p.style then
      match SECTIONS.find? (fun s => PHASE_PATTERNS_updated s text) with
      | some sec => (some sec, bucketAppend out sec ("### ".data ++ text))
      | none => pseudo_or_body_updated cur out text
    else pseudo_or_body_updated cur out text

def classify_updated (ps : List ParagraphRecord) : Option Phase × Buckets :=
  ps.foldl step_updated (none, emptyBuckets)

/-- The hoba_app_updated.py placeholder (same mojibake em-dash as old1). -/
def PLACEHOLDER_updated : List Char :=
  "*(No section content found â€” check headings/keywords in the DOCX)*".data

def assemble_updated (v : List (List Char)) : List Char :=
  if v = [] then PLACEHOLDER_updated else List.intercalate "\n\n".data v

/-- `extract_sections_from_docx` of hoba_app_updated.py on a produced
paragraph sequence. -/
def extract_sections_from_docx_updated (ps : List ParagraphRecord) :
    List (Phase × List Char) :=
  SECTIONS.map fun s => (s, assemble_updated ((classify_updated ps).2 s))

theorem PHASE_PATTERNS_v6_eq : PHASE_PATTERNS_v6 = PHASE_PATTERNS := by
  funext s text
  cases s <;> rfl

theorem step_v6_eq : step_v6 = step_v9 := by
  funext st p
  obtain ⟨cur, out⟩ := st
  unfold step_v6 step_v9 pseudo_or_body_v6 pseudo_or_body
  rw [PHASE_PATTERNS_v6_eq]

theorem PHASE_PATTERNS_old1_eq : PHASE_PATTERNS_old1 = PHASE_PATTERNS := by
  funext s text
  cases s <;> rfl

/-- old1's differently written pseudo-heading condition and `_append_line`
body path agree with v9's, for the already-stripped non-empty text the loop
passes in. -/
theorem pseudo_or_body_old1_eq (cur : Option Phase) (out : Buckets)
    (text : List Char) (hs : pyStrip text = text) (hne : text ≠ []) :
    pseudo_or_body_old1 cur out text = pseudo_or_body cur out text := by
  unfold pseudo_or_body_old1 pseudo_or_body append_line_old1
  rw [PHASE_PATTERNS_old1_eq]
  have hpred : (fun s => (PHASE_PATTERNS s text && pyIsUpper text) ||
      (PHASE_PATTERNS s text && decide (countWords text ≤ 6))) =
      (fun s => PHASE_PATTERNS s text &&
        (pyIsUpper text || decide (countWords text ≤ 6))) := by
    funext s
    rw [Bool.and_or_distrib_left]
  rw [hpred]
  rcases hfind : SECTIONS.find? (fun s => PHASE_PATTERNS s text &&
      (pyIsUpper text || decide (countWords text ≤ 6))) with _ | sec
  · cases cur with
    | none => rfl
    | some c =>
      dsimp only
      rw [hs, if_neg hne]
  · rfl

theorem step_old1_eq (st : Option Phase × Buckets) (p : ParagraphRecord) :
    step_old1 st p = step_v9 st p := by
  obtain ⟨cur, out⟩ := st
  unfold step_old1 step_v9
  dsimp only
  by_cases hne : pyStrip p.text = []
  · rw [if_pos hne, if_pos hne]
  · rw [if_neg hne, if_neg hne, PHASE_PATTERNS_old1_eq,
      pseudo_or_body_old1_eq cur out (pyStrip p.text) (pyStrip_idem p.text) hne]

theorem classify_old1_eq (ps : List ParagraphRecord) :
    classify_old1 ps = classify_v9 ps := by
  unfold classify_old1 classify_v9
  have hstep : step_old1 = step_v9 :=
    funext fun st => funext fun p => step_old1_eq st p
  rw [hstep]

theorem extract_v6_eq_v9 (ps : List ParagraphRecord) :
    extract_sections_from_docx_v6 ps = extract_sections_from_docx_v9 ps := by
  have ha : assemble_v6 = assemble_v9 := by
    funext v
    unfold assemble_v6 assemble_v9 PLACEHOLDER_v6 PLACEHOLDER_v9
    rfl
  unfold extract_sections_from_docx_v6 extract_sections_from_docx_v9
    classify_v6 classify_v9
  rw [step_v6_eq, ha]

/-- Counterexample to C9 as stated: the four revisions do not all compute the
same phase-to-text mapping.  In hoba_app_updated.py the doubled backslashes
make the DISCOVERY pattern miss the heading "Discovery", and in old1 the
empty-bucket placeholder string itself differs (mojibake em-dash), so both
differ from v9 on concrete inputs. -/
theorem c9_counterexample :
    extract_sections_from_docx_updated [⟨"Discovery".data, "Heading 1".data⟩] ≠
      extract_sections_from_docx_v9 [⟨"Discovery".data, "Heading 1".data⟩] ∧
    extract_sections_from_docx_old1 [] ≠ extract_sections_from_docx_v9 [] := by
  decide

/-- C9 as amended: v6 and v9 have extensionally equal segmentation cores, and
old1's core agrees with v9's on the cursor and on every bucket (its
differently written pseudo-heading condition and `_append_line` body path
are equivalent), differing only in the placeholder byte string; the
hoba_app_updated.py core is genuinely different (see the counterexample). -/
theorem c9_revision_equivalence (ps : List ParagraphRecord) :
    extract_sections_from_docx_v6 ps = extract_sections_from_docx_v9 ps ∧
    classify_old1 ps = classify_v9 ps :=
  ⟨extract_v6_eq_v9 ps, classify_old1_eq ps⟩
